import Mathlib

/-!
# Verification of the `argh::wparser` command-line classifier (`wargh.h`)

A shallow embedding of the single-header argument parser: tokens are lists of
characters (`std::wstring`), the parser state is an explicit structure, and the
classification loop of `wparser::parse` is a structurally recursive function.

Modelling notes, keyed to the source:

* `is_number` (wargh.h:303-310) runs `std::wistringstream >> double` and reports
  whether the stream failed.  Stream extraction under the default ("C") locale
  skips leading whitespace, then accumulates the longest character sequence the
  `num_get` float automaton accepts (optional sign; digits; at most one decimal
  point before any exponent; at most one `e`/`E` once a mantissa digit has been
  seen, optionally followed by a sign), and succeeds iff the whole accumulated
  field converts as by `strtod` (C++11 [facet.num.get.virtuals]).  That gives
  numeric-PREFIX semantics: `"-1e10abc"` extracts the field `"-1e10"` and
  succeeds.  `munchField` models the accumulation, `validFloat` the full-field
  conversion check.  Hexadecimal-float fields, `inf`/`nan` spellings and
  non-default locales are outside the model; no claim mentions such tokens.
* `assert` is modelled both ways: `parseLoop` is the release (`NDEBUG`)
  semantics in which an assert is a no-op (and `wstring::operator[](0)` on an
  empty string returns the null character, C++11 [string.access]), while
  `step_ok`/`parse_ok` record whether every executed assertion held, i.e.
  whether a checked build completes the same run without aborting.
* `std::multiset` / `std::multimap` / `std::set` are modelled by lists: flags
  and parameter pairs are kept in emission order (the claims compare contents,
  not container layout), and the registered-name set is a list queried by
  membership, exactly the information `registeredParams_.count` uses.
-/

namespace Argh

/-- A `std::wstring`, as the list of its characters. -/
abbrev Str := List Char

/-- Whitespace of the default locale, as skipped by formatted stream input. -/
def isSpaceChar (c : Char) : Bool :=
  decide (c = ' ' ∨ c = '\t' ∨ c = '\n' ∨ c = '\r' ∨ c = Char.ofNat 11 ∨ c = Char.ofNat 12)

/-- Field accumulation of the `num_get` float automaton after the optional
leading sign and before any exponent marker: `fm` records whether a mantissa
digit has been seen, `fd` whether the decimal point has.  A decimal point is
accepted only once and only before the exponent; `e`/`E` only once and only
after a mantissa digit, with an optional sign directly after it.  Once the
exponent marker and its optional sign are accumulated, only digits can follow
(the point and a second marker are rejected there), so the tail of the field
is `takeWhile isDigit`. -/
def munchF : List Char → Bool → Bool → List Char
  | [], _, _ => []
  | c :: cs, fm, fd =>
    if c = '.' ∧ fd = false then c :: munchF cs fm true
    else if c.isDigit then c :: munchF cs true fd
    else if (c = 'e' ∨ c = 'E') ∧ fm = true then
      match cs with
      | d :: cs' =>
        if d = '+' ∨ d = '-' then c :: d :: cs'.takeWhile Char.isDigit
        else c :: (d :: cs').takeWhile Char.isDigit
      | [] => [c]
    else []

/-- The whole accumulated field: an optional sign, then the automaton above. -/
def munchField : List Char → List Char
  | [] => []
  | c :: cs =>
    if c = '+' ∨ c = '-' then c :: munchF cs false false
    else munchF (c :: cs) false false

/-- Drop the sign of an exponent, if present. -/
def expTail (cs : List Char) : List Char :=
  match cs with
  | d :: cs' => if d = '+' ∨ d = '-' then cs' else cs
  | [] => []

/-- Does the rest of a field, after the mantissa, convert: either nothing, or a
complete exponent part (`e`/`E`, optional sign, at least one digit). -/
def validExpOpt : List Char → Bool
  | [] => true
  | c :: cs =>
    if c = 'e' ∨ c = 'E' then !(expTail cs).isEmpty && (expTail cs).all Char.isDigit
    else false

/-- Does an unsigned field convert completely as by `strtod`: digits with an
optional fractional part (at least one digit on some side of the point),
followed by an optional exponent part. -/
def validBody (s : List Char) : Bool :=
  let intPart := s.takeWhile Char.isDigit
  let rest := s.dropWhile Char.isDigit
  match rest with
  | '.' :: rest2 =>
    let frac := rest2.takeWhile Char.isDigit
    let rest3 := rest2.dropWhile Char.isDigit
    (!intPart.isEmpty || !frac.isEmpty) && validExpOpt rest3
  | _ => !intPart.isEmpty && validExpOpt rest

/-- Does a field convert completely as by `strtod` (optional sign, then body). -/
def validFloat : List Char → Bool
  | [] => false
  | c :: cs => if c = '+' ∨ c = '-' then validBody cs else validBody (c :: cs)

/-- wargh.h:303-310, `wparser::is_number`: construct a `wistringstream` on the
argument, extract a `double`, and report that the stream neither failed nor went
bad — i.e. skip whitespace, accumulate the automaton field, and check that the
whole field converts. -/
def is_number (arg : Str) : Bool :=
  validFloat (munchField (arg.dropWhile isSpaceChar))

/-- wargh.h:314-320, `wparser::is_option` in release semantics: not a number,
and the first character is a dash.  On an empty string `arg[0]` reads the null
character (so the result is `false`); the checked-build assertion
`assert(0 != arg.size())` is tracked separately by `step_ok`. -/
def is_option (arg : Str) : Bool :=
  if is_number arg then false
  else decide (arg.headD (Char.ofNat 0) = '-')

/-- wargh.h:324-328, `wparser::trim_leading_dashes`: `find_first_not_of('-')`
returns `npos` exactly when every character is a dash (in particular on the
empty string), in which case the name is returned unchanged; otherwise the
leading dashes are dropped. -/
def trim_leading_dashes (name : Str) : Str :=
  if name.all (fun c => decide (c = '-')) then name
  else name.dropWhile (fun c => decide (c = '-'))

/-- wargh.h:339-342, `wparser::is_param`: membership in the registered set. -/
def is_param (reg : List Str) (name : Str) : Bool :=
  decide (name ∈ reg)

/-- wargh.h:95, `Mode::PREFER_FLAG_FOR_UNREG_OPTION = 1 << 0`. -/
def PREFER_FLAG_FOR_UNREG_OPTION : Nat := 1

/-- wargh.h:96, `Mode::PREFER_PARAM_FOR_UNREG_OPTION = 1 << 1`. -/
def PREFER_PARAM_FOR_UNREG_OPTION : Nat := 2

/-- wargh.h:97, `Mode::NO_SPLIT_ON_EQUALSIGN = 1 << 2`. -/
def NO_SPLIT_ON_EQUALSIGN : Nat := 4

/-- wargh.h:98, `Mode::SINGLE_DASH_IS_MULTIFLAG = 1 << 3`. -/
def SINGLE_DASH_IS_MULTIFLAG : Nat := 8

/-- Truthiness of `mode & m` for a mode bitmask. -/
def modeHas (mode m : Nat) : Bool :=
  decide (Nat.land mode m ≠ 0)

/-- wargh.h:222-225: split a name on its first `=` (`name.find('=')`) into the
key before it and the value after it. -/
def splitOnEq (name : Str) : Str × Str :=
  (name.takeWhile (fun c => decide (c ≠ '=')), (name.dropWhile (fun c => decide (c ≠ '='))).tail)

/-- wargh.h:230-256, the multiflag block: when exactly one leading dash was
stripped, multiflag mode is on, and the name is unregistered, peel off the last
character as `keep_param` if that single character is registered, emit one flag
per remaining character, and either continue with `keep_param` as the name
(`some`) or consume the token entirely (`none`).  Outside the block the name
passes through unchanged with no flags emitted. -/
def multiflag_step (mode : Nat) (reg : List Str) (arg name : Str) : List Str × Option Str :=
  if arg.length - name.length = 1 ∧ modeHas mode SINGLE_DASH_IS_MULTIFLAG = true ∧
      is_param reg name = false then
    let keep : Str :=
      match name.getLast? with
      | some c => if is_param reg [c] then [c] else []
      | none => []
    let name2 := if keep.isEmpty then name else name.dropLast
    (name2.map (fun c => [c]), if keep.isEmpty then none else some keep)
  else ([], some name)

/-- The classification produced by one `parse` call: the `flags_` multiset and
`params_` multimap in emission order, and `pos_args_` in input order. -/
structure ParseOut where
  flags : List Str
  params : List (Str × Str)
  pos_args : List Str
deriving DecidableEq

/-- Pointwise concatenation of classification results. -/
def ParseOut.app (a b : ParseOut) : ParseOut :=
  ⟨a.flags ++ b.flags, a.params ++ b.params, a.pos_args ++ b.pos_args⟩

/-- One iteration of the loop body of wargh.h:210-289 for the token `arg` with
lookahead `next?` (`none` when `i == args_.size() - 1`): the emitted
classification, and whether the following token was consumed as a value
(`++i`).  Release semantics; `step_ok` tracks the assertions of the same
iteration. -/
def classify_step (mode : Nat) (reg : List Str) (arg : Str) (next? : Option Str) :
    ParseOut × Bool :=
  if is_option arg = false then
    (⟨[], [], [arg]⟩, false)
  else
    let name := trim_leading_dashes arg
    if modeHas mode NO_SPLIT_ON_EQUALSIGN = false ∧ '=' ∈ name then
      (⟨[], [splitOnEq name], []⟩, false)
    else
      match multiflag_step mode reg arg name with
      | (mf, none) => (⟨mf, [], []⟩, false)
      | (mf, some name') =>
        match next? with
        | none => (⟨mf ++ [name'], [], []⟩, false)
        | some next =>
          if is_option next = true then (⟨mf ++ [name'], [], []⟩, false)
          else if is_param reg name' = true ∨ modeHas mode PREFER_PARAM_FOR_UNREG_OPTION = true then
            (⟨mf, [(name', next)], []⟩, true)
          else (⟨mf ++ [name'], [], []⟩, false)

/-- wargh.h:210-289, the parse loop over the token list in release semantics:
each iteration classifies `args_[i]` with lookahead `args_[i + 1]` and advances
by one token, or by two when the lookahead was consumed as a parameter value. -/
def parseLoop (mode : Nat) (reg : List Str) : List Str → ParseOut
  | [] => ⟨[], [], []⟩
  | [arg] => (classify_step mode reg arg none).1
  | arg :: next :: rest =>
    let s := classify_step mode reg arg (some next)
    if s.2 then ParseOut.app s.1 (parseLoop mode reg rest)
    else ParseOut.app s.1 (parseLoop mode reg (next :: rest))

/-- Did mode bits 0 and 1 violate the assertion at wargh.h:274-275? -/
def mode_assert_bad (mode : Nat) : Bool :=
  modeHas mode PREFER_FLAG_FOR_UNREG_OPTION && modeHas mode PREFER_PARAM_FOR_UNREG_OPTION

/-- Every assertion executed during one loop iteration held: the token handed
to `is_option` at wargh.h:212 is nonempty; if control reaches the lookahead
test at wargh.h:260, the lookahead token handed to `is_option` is nonempty; and
if control reaches wargh.h:274 (next token exists and is not an option), the
mode bits are not contradictory. -/
def step_ok (mode : Nat) (reg : List Str) (arg : Str) (next? : Option Str) : Bool :=
  !arg.isEmpty &&
  (if is_option arg = false then true
   else
     let name := trim_leading_dashes arg
     if modeHas mode NO_SPLIT_ON_EQUALSIGN = false ∧ '=' ∈ name then true
     else
       match multiflag_step mode reg arg name with
       | (_, none) => true
       | (_, some _) =>
         match next? with
         | none => true
         | some next =>
           !next.isEmpty &&
           (if is_option next = true then true else !mode_assert_bad mode))

/-- Every assertion executed during the whole parse loop held, i.e. a checked
(assert-enabled) build completes this parse without aborting. -/
def parse_ok (mode : Nat) (reg : List Str) : List Str → Bool
  | [] => true
  | [arg] => step_ok mode reg arg none
  | arg :: next :: rest =>
    step_ok mode reg arg (some next) &&
    (if (classify_step mode reg arg (some next)).2 then parse_ok mode reg rest
     else parse_ok mode reg (next :: rest))

/-- Control in this iteration reaches the assertion at wargh.h:274: the token
is an option, survives equal-sign splitting and the multiflag block, and the
following token exists and is not an option. -/
def step_hits_decision (mode : Nat) (reg : List Str) (arg next : Str) : Bool :=
  if is_option arg = false then false
  else
    let name := trim_leading_dashes arg
    if modeHas mode NO_SPLIT_ON_EQUALSIGN = false ∧ '=' ∈ name then false
    else
      match multiflag_step mode reg arg name with
      | (_, none) => false
      | (_, some _) => !(is_option next)

/-- Some iteration of the parse loop executes the assertion at wargh.h:274. -/
def reaches_decision (mode : Nat) (reg : List Str) : List Str → Bool
  | [] => false
  | [_] => false
  | arg :: next :: rest =>
    step_hits_decision mode reg arg next ||
    (if (classify_step mode reg arg (some next)).2 then reaches_decision mode reg rest
     else reaches_decision mode reg (next :: rest))

/-- The assertion at wargh.h:274-275 fires during this parse: its condition is
violated by the mode bits and some iteration executes it. -/
def mode_assert_fires (mode : Nat) (reg : List Str) (args : List Str) : Bool :=
  mode_assert_bad mode && reaches_decision mode reg args

/-- The name an option token carries into the value-taking decision at
wargh.h:258-288, or `none` when the token never reaches it (non-option,
consumed by equal-sign splitting, or fully consumed by multiflag expansion).
Accounts for the multiflag block replacing the name by `keep_param`. -/
def decision_name (mode : Nat) (reg : List Str) (arg : Str) : Option Str :=
  if is_option arg = false then none
  else
    let name := trim_leading_dashes arg
    if modeHas mode NO_SPLIT_ON_EQUALSIGN = false ∧ '=' ∈ name then none
    else (multiflag_step mode reg arg name).2

/-- The per-character flags the multiflag block emits for a token before the
value-taking decision (empty outside the multiflag keep-param case). -/
def decision_mf (mode : Nat) (reg : List Str) (arg : Str) : List Str :=
  if is_option arg = false then []
  else
    let name := trim_leading_dashes arg
    if modeHas mode NO_SPLIT_ON_EQUALSIGN = false ∧ '=' ∈ name then []
    else (multiflag_step mode reg arg name).1

/-- wargh.h:177-184, the state of a `wparser` instance. -/
structure WParser where
  args : List Str
  params : List (Str × Str)
  pos_args : List Str
  flags : List Str
  registeredParams : List Str
deriving DecidableEq

/-- A default-constructed `wparser`: every container empty. -/
def wparser_init : WParser :=
  ⟨[], [], [], [], []⟩

/-- wargh.h:451-454, `wparser::add_param`: insert the trimmed name into the
registered set (modelled by membership in a list). -/
def add_param (p : WParser) (name : Str) : WParser :=
  { p with registeredParams := trim_leading_dashes name :: p.registeredParams }

/-- wargh.h:198-290, `wparser::parse(int, argv, mode)`: clear `flags_`,
`params_` and `pos_args_`, replace `args_` wholesale by the input tokens, and
run the classification loop against the current registered set. -/
def parse (p : WParser) (mode : Nat) (argsIn : List Str) : WParser :=
  let r := parseLoop mode p.registeredParams argsIn
  { p with args := argsIn, flags := r.flags, params := r.params, pos_args := r.pos_args }

/-- The state of a `wstring_stream` as handed out by the accessors: the
buffered text and whether the failbit is set. -/
structure WStream where
  str : Str
  failed : Bool
deriving DecidableEq

/-- wargh.h:294-299, `wparser::bad_stream`: an empty stream with failbit set. -/
def bad_stream : WStream :=
  ⟨[], true⟩

/-- wargh.h:360-365, `wparser::operator[](size_t)`: the positional at `ind`,
or the empty-string member `empty_` when the index is out of range. -/
def pos_arg_at (p : WParser) (ind : Nat) : Str :=
  if h : ind < p.pos_args.length then p.pos_args.get ⟨ind, h⟩ else []

/-- wargh.h:425-431, `wparser::operator()(size_t)`: a failed stream when the
index is out of range, otherwise a fresh stream on the positional at `ind`. -/
def pos_arg_stream (p : WParser) (ind : Nat) : WStream :=
  if p.pos_args.length ≤ ind then bad_stream
  else ⟨pos_arg_at p ind, false⟩

/-- The text `std::ostringstream << def_val` produces for an `int` default:
its decimal notation. -/
def formatInt (n : Int) : Str :=
  (toString n).toList

/-- wargh.h:435-447, `wparser::operator()(size_t, T&&)` at an `int` default:
when the index is out of range, a fresh (non-failed) stream on the formatted
default, otherwise a fresh stream on the positional at `ind`. -/
def pos_arg_stream_def (p : WParser) (ind : Nat) (dv : Int) : WStream :=
  if p.pos_args.length ≤ ind then ⟨formatInt dv, false⟩
  else ⟨pos_arg_at p ind, false⟩

/-- Modelled from the spec's words for claim C1 (spec §4.1 "Token
classification"): the full token string parses as an optionally signed integer
or decimal number — the same literal grammar as `validFloat`, but applied to
the entire token with nothing left over and no whitespace skipping. -/
def spec_is_number (arg : Str) : Bool :=
  validFloat arg

/-- Modelled from the spec's words for claim C1: an option iff not a numeric
literal in the full-string sense and the first character is a dash. -/
def spec_is_option (arg : Str) : Bool :=
  !spec_is_number arg && decide (arg.headD (Char.ofNat 0) = '-')

/-! ## Basic lemmas about the embedding -/

theorem ParseOut.app_assoc (a b c : ParseOut) :
    ParseOut.app (ParseOut.app a b) c = ParseOut.app a (ParseOut.app b c) := by
  simp [ParseOut.app]

theorem ParseOut.nil_app (a : ParseOut) : ParseOut.app ⟨[], [], []⟩ a = a := by
  simp [ParseOut.app]

theorem ParseOut.app_nil (a : ParseOut) : ParseOut.app a ⟨[], [], []⟩ = a := by
  simp [ParseOut.app]

theorem parseLoop_nil (mode : Nat) (reg : List Str) : parseLoop mode reg [] = ⟨[], [], []⟩ :=
  rfl

theorem parseLoop_one (mode : Nat) (reg : List Str) (arg : Str) :
    parseLoop mode reg [arg] = (classify_step mode reg arg none).1 :=
  rfl

theorem parseLoop_cons_cons (mode : Nat) (reg : List Str) (arg next : Str) (rest : List Str) :
    parseLoop mode reg (arg :: next :: rest) =
      if (classify_step mode reg arg (some next)).2 then
        ParseOut.app (classify_step mode reg arg (some next)).1 (parseLoop mode reg rest)
      else
        ParseOut.app (classify_step mode reg arg (some next)).1 (parseLoop mode reg (next :: rest)) :=
  rfl

/-- An empty token is never an option (in release semantics `arg[0]` is NUL). -/
theorem is_option_ne_nil (arg : Str) (h : is_option arg = true) : arg ≠ [] := by
  intro hnil
  rw [hnil] at h
  exact absurd h (by decide)

/-- Dash-trimming only yields the empty string on the empty string: on an
all-dash nonempty token `find_first_not_of` returns `npos` and the token is
kept whole. -/
theorem trim_eq_nil (arg : Str) (h : trim_leading_dashes arg = []) : arg = [] := by
  unfold trim_leading_dashes at h
  split at h
  · exact h
  · rename_i hall
    rw [List.dropWhile_eq_nil_iff] at h
    exact absurd (List.all_eq_true.mpr h) hall

theorem trim_ne_nil (arg : Str) (h : arg ≠ []) : trim_leading_dashes arg ≠ [] :=
  fun hn => h (trim_eq_nil arg hn)

/-- With no lookahead the loop body never consumes a following token. -/
theorem classify_step_none_snd (mode : Nat) (reg : List Str) (arg : Str) :
    (classify_step mode reg arg none).2 = false := by
  simp only [classify_step]
  repeat' split
  all_goals rfl

/-- An option-shaped lookahead token behaves exactly like no lookahead: the
test at wargh.h:260 sends both to the flag branch, consuming nothing. -/
theorem classify_step_some_opt (mode : Nat) (reg : List Str) (arg next : Str)
    (h : is_option next = true) :
    classify_step mode reg arg (some next) = classify_step mode reg arg none := by
  simp only [classify_step]
  repeat' split
  all_goals simp_all

/-- A non-option token at the head of the loop is appended to the positionals
and nothing else. -/
theorem classify_step_not_option (mode : Nat) (reg : List Str) (arg : Str) (next? : Option Str)
    (h : is_option arg = false) :
    classify_step mode reg arg next? = (⟨[], [], [arg]⟩, false) := by
  simp [classify_step, h]

theorem parseLoop_cons_not_option (mode : Nat) (reg : List Str) (arg : Str) (rest : List Str)
    (h : is_option arg = false) :
    parseLoop mode reg (arg :: rest) =
      ⟨(parseLoop mode reg rest).flags, (parseLoop mode reg rest).params,
        arg :: (parseLoop mode reg rest).pos_args⟩ := by
  cases rest with
  | nil => simp [parseLoop_one, classify_step_not_option mode reg arg none h, parseLoop_nil]
  | cons next rest' =>
    simp [parseLoop_cons_cons, classify_step_not_option mode reg arg (some next) h, ParseOut.app]

/-- An option token whose trimmed name contains `=` (with splitting enabled) is
consumed whole into a single parameter pair, regardless of lookahead. -/
theorem classify_step_eq_split (mode : Nat) (reg : List Str) (arg : Str) (next? : Option Str)
    (h1 : is_option arg = true) (h2 : modeHas mode NO_SPLIT_ON_EQUALSIGN = false)
    (h3 : '=' ∈ trim_leading_dashes arg) :
    classify_step mode reg arg next? = (⟨[], [splitOnEq (trim_leading_dashes arg)], []⟩, false) := by
  simp [classify_step, h1, h2, h3]

/-- When the multiflag block consumes a token entirely, the flags it emitted
are one per character of the (nonempty) trimmed name, so there is at least
one. -/
theorem multiflag_step_none_mf (mode : Nat) (reg : List Str) (arg name : Str) (mf : List Str)
    (hname : name ≠ []) (h : multiflag_step mode reg arg name = (mf, none)) :
    mf ≠ [] := by
  unfold multiflag_step at h
  split at h
  · simp only [Prod.mk.injEq] at h
    obtain ⟨h1, h2⟩ := h
    split at h2
    · rename_i hc
      simp only [hc, if_true] at h1
      intro habs
      rw [habs] at h1
      exact hname (List.map_eq_nil_iff.mp h1)
    · exact absurd h2 (by simp)
  · simp at h

/-- An option token with no lookahead that survives equal-sign splitting only
ever emits flags, and at least one. -/
theorem classify_step_none_opt_flags (mode : Nat) (reg : List Str) (t : Str)
    (h1 : is_option t = true)
    (h2 : ¬(modeHas mode NO_SPLIT_ON_EQUALSIGN = false ∧ '=' ∈ trim_leading_dashes t)) :
    ∃ fs : List Str, fs ≠ [] ∧ classify_step mode reg t none = (⟨fs, [], []⟩, false) := by
  have hne : trim_leading_dashes t ≠ [] := trim_ne_nil t (is_option_ne_nil t h1)
  simp only [classify_step]
  rw [if_neg (by simp [h1]), if_neg h2]
  rcases hm : multiflag_step mode reg t (trim_leading_dashes t) with ⟨mf, o⟩
  rcases o with _ | name'
  · exact ⟨mf, multiflag_step_none_mf mode reg t (trim_leading_dashes t) mf hne hm, rfl⟩
  · exact ⟨mf ++ [name'], by simp, rfl⟩

/-- An option token at the end of the input is classified exactly as it would
be alone: the loop result on `args ++ [t]` is the result on `args` followed by
the result on `[t]`.  (The token before `t` sees an option-shaped lookahead and
so never consumes `t`.) -/
theorem parseLoop_append_opt (mode : Nat) (reg : List Str) (t : Str)
    (ht : is_option t = true) (args : List Str) :
    parseLoop mode reg (args ++ [t]) =
      ParseOut.app (parseLoop mode reg args) (parseLoop mode reg [t]) := by
  induction args using parse_ok.induct mode reg with
  | case1 => simp [parseLoop_nil, ParseOut.nil_app]
  | case2 arg =>
    have h2 := classify_step_some_opt mode reg arg t ht
    have h3 := classify_step_none_snd mode reg arg
    simp only [List.cons_append, List.nil_append, parseLoop_cons_cons, h2, h3, Bool.false_eq_true,
      if_false, parseLoop_one]
  | case3 arg next rest ih1 ih2 =>
    simp only [List.cons_append, parseLoop_cons_cons]
    by_cases h : (classify_step mode reg arg (some next)).2 = true
    · simp only [h, if_true, ih1, ← ParseOut.app_assoc]
    · simp only [h, if_false, Bool.false_eq_true]
      rw [show next :: (rest ++ [t]) = (next :: rest) ++ [t] from rfl, ih2, ← ParseOut.app_assoc]

/-- All the assertions of a parse hold when the mode bits do not conflict and
no token is empty. -/
theorem step_ok_of (mode : Nat) (reg : List Str) (arg : Str) (next? : Option Str)
    (hm : mode_assert_bad mode = false) (ha : arg ≠ [])
    (hn : ∀ n, next? = some n → n ≠ []) : step_ok mode reg arg next? = true := by
  have ha' : (!arg.isEmpty) = true := by simp [ha]
  simp only [step_ok, ha', Bool.true_and]
  split
  · rfl
  · split
    · rfl
    · split
      · rfl
      · cases hq : next? with
        | none => rfl
        | some next =>
          have hne : (!next.isEmpty) = true := by simp [hn next hq]
          simp [hne, hm]

theorem parse_ok_of (mode : Nat) (reg : List Str) (hm : mode_assert_bad mode = false) :
    ∀ args : List Str, (∀ t ∈ args, t ≠ []) → parse_ok mode reg args = true := by
  intro args
  induction args using parse_ok.induct mode reg with
  | case1 => intro; rfl
  | case2 arg =>
    intro h
    simpa [parse_ok] using step_ok_of mode reg arg none hm (h arg (by simp)) (by simp)
  | case3 arg nxt rest ih1 ih2 =>
    intro h
    have hs := step_ok_of mode reg arg (some nxt) hm (h arg (by simp))
      (fun n hn => by cases hn; exact h nxt (by simp))
    simp only [parse_ok, hs, Bool.true_and]
    split
    · exact ih1 (fun y hy => h y (by simp [hy]))
    · exact ih2 (fun y hy => by
        rcases List.mem_cons.mp hy with h1 | h1
        · rw [h1]; exact h nxt (by simp)
        · exact h y (by simp [h1]))

/-- With non-conflicting mode bits the assertion at wargh.h:274-275 never
fires, whatever is parsed. -/
theorem mode_assert_fires_of_ok (mode : Nat) (reg : List Str) (args : List Str)
    (hm : mode_assert_bad mode = false) : mode_assert_fires mode reg args = false := by
  simp [mode_assert_fires, hm]

/-- The loop body at the value-taking decision (wargh.h:258-288), as one
equation: with `name` surviving to the decision and multiflag flags `mf`, the
lookahead decides between flag emission and value consumption. -/
theorem classify_step_at_decision (mode : Nat) (reg : List Str) (arg nx name : Str)
    (mf : List Str) (h1 : is_option arg = true)
    (h2 : ¬(modeHas mode NO_SPLIT_ON_EQUALSIGN = false ∧ '=' ∈ trim_leading_dashes arg))
    (hmf : multiflag_step mode reg arg (trim_leading_dashes arg) = (mf, some name)) :
    classify_step mode reg arg (some nx) =
      if is_option nx = true then (⟨mf ++ [name], [], []⟩, false)
      else if is_param reg name = true ∨ modeHas mode PREFER_PARAM_FOR_UNREG_OPTION = true then
        (⟨mf, [(name, nx)], []⟩, true)
      else (⟨mf ++ [name], [], []⟩, false) := by
  simp only [classify_step]
  rw [if_neg (by simp [h1]), if_neg h2, hmf]

/-! ## The claims -/

/-- C1, counterexample: the token `-1e10abc` is not a numeric literal in the
claim's full-string sense and starts with a dash, so the claim classifies it
as an option; but `is_number` succeeds on it (stream extraction accumulates
and converts the field `-1e10`), so the source's `is_option` returns false and
the token is positional. -/
theorem c1_counterexample :
    spec_is_option ("-1e10abc".toList) = true ∧ is_number ("-1e10abc".toList) = true ∧
      is_option ("-1e10abc".toList) = false ∧ ("-1e10abc".toList : Str) ≠ [] := by
  decide

/-- C1, amended: for every nonempty token, `is_option` returns true iff the
token is not recognised as numeric by stream extraction — which accepts a
numeric prefix whose accumulated field fully converts, not only full-string
numerals — and the token's first character is a dash; and every token on which
`is_option` returns false that comes up for classification at the head of the
loop is appended to the positionals (a token consumed as a parameter's value
never comes up for classification). -/
theorem c1_amended (mode : Nat) (reg : List Str) (arg : Str) (rest : List Str) :
    (arg ≠ [] →
      (is_option arg = true ↔ is_number arg = false ∧ arg.headD (Char.ofNat 0) = '-'))
    ∧ (is_option arg = false →
        parseLoop mode reg (arg :: rest) =
          ⟨(parseLoop mode reg rest).flags, (parseLoop mode reg rest).params,
            arg :: (parseLoop mode reg rest).pos_args⟩) := by
  constructor
  · intro _
    unfold is_option
    split
    · rename_i hnum
      simp [hnum]
    · rename_i hnum
      simp [hnum]
  · exact fun h => parseLoop_cons_not_option mode reg arg rest h

/-- C1, witness: the amended equivalence at the option token `-v`, and the
positional classification of the non-option token `x`. -/
theorem c1_witness :
    (is_option ("-v".toList) = true ↔
      is_number ("-v".toList) = false ∧ ("-v".toList).headD (Char.ofNat 0) = '-')
    ∧ parseLoop 1 [] (("x".toList) :: []) =
        ⟨(parseLoop 1 [] []).flags, (parseLoop 1 [] []).params,
          ("x".toList) :: (parseLoop 1 [] []).pos_args⟩ :=
  ⟨(c1_amended 1 [] ("-v".toList) []).1 (by decide),
   (c1_amended 1 [] ("x".toList) []).2 (by decide)⟩

/-- C2: parsing `["prog", "file.txt", "-v", "--name", "Alice", "-3"]` in the
default mode (`PREFER_FLAG_FOR_UNREG_OPTION` only) after registering `name`
as a parameter yields exactly the positionals `["prog", "file.txt", "-3"]` in
that order, the single flag `v`, and the single parameter `name = Alice`. -/
theorem c2_default_mode_example :
    parse (add_param wparser_init ("name".toList)) PREFER_FLAG_FOR_UNREG_OPTION
        [("prog".toList), ("file.txt".toList), ("-v".toList), ("--name".toList),
          ("Alice".toList), ("-3".toList)] =
      ⟨[("prog".toList), ("file.txt".toList), ("-v".toList), ("--name".toList),
          ("Alice".toList), ("-3".toList)],
        [(("name".toList), ("Alice".toList))],
        [("prog".toList), ("file.txt".toList), ("-3".toList)],
        [("v".toList)],
        [("name".toList)]⟩ := by
  decide

/-- C3: an option token that reaches the value-taking decision carrying `name`
and followed by token `t`: an option-shaped `t` makes `name` a flag even when
registered; a non-option `t` with `name` registered or with param-preferring
mode set inserts `(name, t)` into the parameters and consumes `t` (the loop
continues after `t`, which is never independently classified); otherwise
`name` becomes a flag and `t` is classified independently next iteration. -/
theorem c3_value_decision (mode : Nat) (reg : List Str) (arg t : Str) (rest : List Str)
    (name : Str) (hd : decision_name mode reg arg = some name) :
    (is_option t = true →
      parseLoop mode reg (arg :: t :: rest) =
        ParseOut.app ⟨decision_mf mode reg arg ++ [name], [], []⟩
          (parseLoop mode reg (t :: rest)))
    ∧ (is_option t = false →
        is_param reg name = true ∨ modeHas mode PREFER_PARAM_FOR_UNREG_OPTION = true →
        parseLoop mode reg (arg :: t :: rest) =
          ParseOut.app ⟨decision_mf mode reg arg, [(name, t)], []⟩ (parseLoop mode reg rest))
    ∧ (is_option t = false → is_param reg name = false →
        modeHas mode PREFER_PARAM_FOR_UNREG_OPTION = false →
        parseLoop mode reg (arg :: t :: rest) =
          ParseOut.app ⟨decision_mf mode reg arg ++ [name], [], []⟩
            (parseLoop mode reg (t :: rest))) := by
  have h1 : is_option arg = true := by
    cases ho : is_option arg
    · simp [decision_name, ho] at hd
    · rfl
  have h2 : ¬(modeHas mode NO_SPLIT_ON_EQUALSIGN = false ∧ '=' ∈ trim_leading_dashes arg) := by
    intro hc
    simp only [decision_name] at hd
    rw [if_neg (by simp [h1]), if_pos hc] at hd
    simp at hd
  have hmf : multiflag_step mode reg arg (trim_leading_dashes arg) =
      (decision_mf mode reg arg, some name) := by
    have e1 : decision_name mode reg arg =
        (multiflag_step mode reg arg (trim_leading_dashes arg)).2 := by
      simp only [decision_name]
      rw [if_neg (by simp [h1]), if_neg h2]
    have e2 : decision_mf mode reg arg =
        (multiflag_step mode reg arg (trim_leading_dashes arg)).1 := by
      simp only [decision_mf]
      rw [if_neg (by simp [h1]), if_neg h2]
    rw [e2, ← hd, e1]
  have hcd := classify_step_at_decision mode reg arg t name (decision_mf mode reg arg) h1 h2 hmf
  refine ⟨?_, ?_, ?_⟩
  · intro ht
    have e : classify_step mode reg arg (some t) =
        (⟨decision_mf mode reg arg ++ [name], [], []⟩, false) := by
      rw [hcd, if_pos ht]
    rw [parseLoop_cons_cons, e]
    rfl
  · intro ht hp
    have e : classify_step mode reg arg (some t) =
        (⟨decision_mf mode reg arg, [(name, t)], []⟩, true) := by
      rw [hcd, if_neg (by simp [ht]), if_pos hp]
    rw [parseLoop_cons_cons, e]
    rfl
  · intro ht hp1 hp2
    have e : classify_step mode reg arg (some t) =
        (⟨decision_mf mode reg arg ++ [name], [], []⟩, false) := by
      rw [hcd, if_neg (by simp [ht]), if_neg (by simp [hp1, hp2])]
    rw [parseLoop_cons_cons, e]
    rfl

/-- C3, witness: the registered parameter `name` followed by the non-option
token `Alice` consumes `Alice` as its value. -/
theorem c3_witness :
    parseLoop 1 [("name".toList)] [("--name".toList), ("Alice".toList)] =
      ParseOut.app ⟨decision_mf 1 [("name".toList)] ("--name".toList),
        [(("name".toList), ("Alice".toList))], []⟩ (parseLoop 1 [("name".toList)] []) :=
  (c3_value_decision 1 [("name".toList)] ("--name".toList) ("Alice".toList) []
    ("name".toList) (by decide)).2.1 (by decide) (Or.inl (by decide))

/-- C4, counterexample: with multiflag mode on (mode 9), `c` registered, and
the following token `-v` — which exists but is option-shaped — `-abc -v` does
NOT yield the parameter `c = -v`: the lookahead test sends `c` to the flag
branch, so the run yields the flags `a`, `b`, `c`, `v` and no parameter. -/
theorem c4_counterexample :
    is_option ['-', 'v'] = true ∧
      parseLoop 9 [['c']] [['-', 'a', 'b', 'c'], ['-', 'v']] =
        ⟨[['a'], ['b'], ['c'], ['v']], [], []⟩ := by
  decide

/-- C4, amended: with multiflag mode enabled, an unregistered `-abc` (with `c`
also unregistered) expands to the flags `a`, `b`, `c` and consumes no
following token; if instead the single character `c` is registered and a
following NON-OPTION token `X` exists, the run yields flags `a`, `b` and the
parameter `c = X`, consuming `X`.  (A following option-shaped token is not
consumed; `c` then becomes a flag, as the counterexample shows.) -/
theorem c4_multiflag (mode : Nat) (reg : List Str) (rest : List Str) (X : Str)
    (hm : modeHas mode SINGLE_DASH_IS_MULTIFLAG = true) :
    (is_param reg ['a', 'b', 'c'] = false → is_param reg ['c'] = false →
      parseLoop mode reg (['-', 'a', 'b', 'c'] :: rest) =
        ParseOut.app ⟨[['a'], ['b'], ['c']], [], []⟩ (parseLoop mode reg rest))
    ∧ (is_param reg ['a', 'b', 'c'] = false → is_param reg ['c'] = true →
        is_option X = false →
        parseLoop mode reg (['-', 'a', 'b', 'c'] :: X :: rest) =
          ParseOut.app ⟨[['a'], ['b']], [(['c'], X)], []⟩ (parseLoop mode reg rest)) := by
  have htrim : trim_leading_dashes ['-', 'a', 'b', 'c'] = ['a', 'b', 'c'] := by decide
  have hopt : is_option ['-', 'a', 'b', 'c'] = true := by decide
  have heq : ¬(modeHas mode NO_SPLIT_ON_EQUALSIGN = false ∧
      '=' ∈ trim_leading_dashes ['-', 'a', 'b', 'c']) := by
    rw [htrim]
    rintro ⟨-, hmem⟩
    exact absurd hmem (by decide)
  constructor
  · intro hp1 hp2
    have hmf : multiflag_step mode reg ['-', 'a', 'b', 'c']
        (trim_leading_dashes ['-', 'a', 'b', 'c']) = ([['a'], ['b'], ['c']], none) := by
      rw [htrim]
      simp only [multiflag_step]
      rw [if_pos ⟨by decide, hm, hp1⟩]
      simp [List.getLast?_cons_cons, List.getLast?_singleton, hp2]
    have e : ∀ next?, classify_step mode reg ['-', 'a', 'b', 'c'] next? =
        (⟨[['a'], ['b'], ['c']], [], []⟩, false) := by
      intro next?
      simp only [classify_step]
      rw [if_neg (by simp [hopt]), if_neg heq, hmf]
    cases rest with
    | nil => rw [parseLoop_one, e none, parseLoop_nil, ParseOut.app_nil]
    | cons n r =>
      rw [parseLoop_cons_cons, e (some n)]
      rfl
  · intro hp1 hp2 hX
    have hmf : multiflag_step mode reg ['-', 'a', 'b', 'c']
        (trim_leading_dashes ['-', 'a', 'b', 'c']) = ([['a'], ['b']], some ['c']) := by
      rw [htrim]
      simp only [multiflag_step]
      rw [if_pos ⟨by decide, hm, hp1⟩]
      simp [List.getLast?_cons_cons, List.getLast?_singleton, hp2, List.dropLast]
    have e2 : classify_step mode reg ['-', 'a', 'b', 'c'] (some X) =
        (⟨[['a'], ['b']], [(['c'], X)], []⟩, true) := by
      rw [classify_step_at_decision mode reg ['-', 'a', 'b', 'c'] X ['c'] [['a'], ['b']]
        hopt heq hmf]
      rw [if_neg (by simp [hX]), if_pos (Or.inl hp2)]
    rw [parseLoop_cons_cons, e2]
    rfl

/-- C4, witness: both amended branches at mode 9 — `-abc x` with nothing
registered, and `-abc X` with `c` registered. -/
theorem c4_witness :
    parseLoop 9 [] [['-', 'a', 'b', 'c'], ['x']] =
      ParseOut.app ⟨[['a'], ['b'], ['c']], [], []⟩ (parseLoop 9 [] [['x']])
    ∧ parseLoop 9 [['c']] [['-', 'a', 'b', 'c'], ['X']] =
      ParseOut.app ⟨[['a'], ['b']], [(['c'], ['X'])], []⟩ (parseLoop 9 [['c']] []) :=
  ⟨(c4_multiflag 9 [] [['x']] ['x'] (by decide)).1 (by decide) (by decide),
   (c4_multiflag 9 [['c']] [] ['X'] (by decide)).2 (by decide) (by decide) (by decide)⟩

/-- C5: every option token whose trimmed name contains `=`, parsed without
`NO_SPLIT_ON_EQUALSIGN`, is split on its first `=` into a key/value pair that
is inserted into the parameters; the token is fully consumed, with no
lookahead — the rest of the input is classified exactly as it would be alone. -/
theorem c5_equals_split (mode : Nat) (reg : List Str) (arg : Str) (rest : List Str)
    (h1 : is_option arg = true) (h2 : modeHas mode NO_SPLIT_ON_EQUALSIGN = false)
    (h3 : '=' ∈ trim_leading_dashes arg) :
    parseLoop mode reg (arg :: rest) =
      ⟨(parseLoop mode reg rest).flags,
        splitOnEq (trim_leading_dashes arg) :: (parseLoop mode reg rest).params,
        (parseLoop mode reg rest).pos_args⟩ := by
  cases rest with
  | nil => rw [parseLoop_one, classify_step_eq_split mode reg arg none h1 h2 h3, parseLoop_nil]
  | cons n r =>
    rw [parseLoop_cons_cons, classify_step_eq_split mode reg arg (some n) h1 h2 h3]
    simp [ParseOut.app]

/-- C5, witness: `--alpha=beta` alone yields exactly the parameter
`alpha = beta`. -/
theorem c5_witness :
    parseLoop 1 [] [("--alpha=beta".toList)] =
      ⟨[], [(("alpha".toList), ("beta".toList))], []⟩ := by
  rw [c5_equals_split 1 [] ("--alpha=beta".toList) [] (by decide) (by decide) (by decide)]
  decide

/-- C6, counterexample: `--a=b` is an option-shaped token and the last (only)
token of its input, yet it is classified as the parameter `a = b` by
equal-sign splitting — not as a flag. -/
theorem c6_counterexample :
    is_option ("--a=b".toList) = true ∧
      parseLoop 1 [] [("--a=b".toList)] = ⟨[], [(("a".toList), ("b".toList))], []⟩ := by
  decide

/-- C6, amended: an option-shaped final token that is not consumed by
equal-sign splitting contributes one or more flags and nothing else — it is
never recorded as a lookahead parameter and never consumes a value.  (With
splitting enabled and `=` in its trimmed name it instead becomes an inline
parameter, as the counterexample shows.) -/
theorem c6_last_option_flag (mode : Nat) (reg : List Str) (args : List Str) (t : Str)
    (ht : is_option t = true)
    (h2 : ¬(modeHas mode NO_SPLIT_ON_EQUALSIGN = false ∧ '=' ∈ trim_leading_dashes t)) :
    ∃ fs : List Str, fs ≠ [] ∧
      parseLoop mode reg (args ++ [t]) =
        ⟨(parseLoop mode reg args).flags ++ fs, (parseLoop mode reg args).params,
          (parseLoop mode reg args).pos_args⟩ := by
  obtain ⟨fs, hne, hcs⟩ := classify_step_none_opt_flags mode reg t ht h2
  refine ⟨fs, hne, ?_⟩
  rw [parseLoop_append_opt mode reg t ht args, parseLoop_one, hcs]
  simp [ParseOut.app]

/-- C6, witness: the amended theorem at `x -v`: the final `-v` adds only the
flag `v`. -/
theorem c6_witness :
    ∃ fs : List Str, fs ≠ [] ∧
      parseLoop 1 [] ([("x".toList)] ++ [("-v".toList)]) =
        ⟨(parseLoop 1 [] [("x".toList)]).flags ++ fs,
          (parseLoop 1 [] [("x".toList)]).params,
          (parseLoop 1 [] [("x".toList)]).pos_args⟩ :=
  c6_last_option_flag 1 [] [("x".toList)] ("-v".toList) (by decide) (by decide)

/-- C7, counterexample: mode 1 is well-formed (the two prefer bits do not
conflict), yet parsing the single empty-string token aborts a checked build:
the assertion `assert(0 != arg.size())` inside `is_option` fires, so not every
assertion of the run holds. -/
theorem c7_counterexample :
    mode_assert_bad 1 = false ∧ parse_ok 1 [] [([] : Str)] = false := by
  decide

/-- C7, amended: with a well-formed mode (not both prefer bits) and no
empty-string token, parsing executes no failing assertion — classification is
the total, deterministic function `parseLoop`, and every checked-build
assertion holds.  (An empty-string token fires the `is_option` size assertion
in checked builds; in release builds it is classified as a positional.) -/
theorem c7_no_assert (mode : Nat) (reg : List Str) (args : List Str)
    (hm : mode_assert_bad mode = false) (hne : ∀ t ∈ args, t ≠ []) :
    parse_ok mode reg args = true ∧
      parseLoop mode reg ([] :: args) =
        ⟨(parseLoop mode reg args).flags, (parseLoop mode reg args).params,
          ([] : Str) :: (parseLoop mode reg args).pos_args⟩ :=
  ⟨parse_ok_of mode reg hm args hne,
   parseLoop_cons_not_option mode reg [] args (by decide)⟩

/-- C7, witness: the amended theorem at mode 1 on `-v x`. -/
theorem c7_witness :
    parse_ok 1 [] [("-v".toList), ("x".toList)] = true ∧
      parseLoop 1 [] ([] :: [("-v".toList), ("x".toList)]) =
        ⟨(parseLoop 1 [] [("-v".toList), ("x".toList)]).flags,
          (parseLoop 1 [] [("-v".toList), ("x".toList)]).params,
          ([] : Str) :: (parseLoop 1 [] [("-v".toList), ("x".toList)]).pos_args⟩ :=
  c7_no_assert 1 [] [("-v".toList), ("x".toList)] (by decide) (by decide)

/-- C8, counterexample: with both prefer bits set (mode 3) the input `-a`
completes with no assertion executed or failing — the single option token is
last, so control never reaches the assertion at wargh.h:274 — contradicting
"triggers the assertion for every input token list". -/
theorem c8_counterexample :
    mode_assert_bad 3 = true ∧ parse_ok 3 [] [("-a".toList)] = true ∧
      mode_assert_fires 3 [] [("-a".toList)] = false := by
  decide

/-- C8, amended: with at most one prefer bit the mode assertion never fires on
any input; with both bits set it fires exactly when some option token reaches
the value-taking decision — e.g. on `-a b`, where `-a` has the non-option
successor `b`. -/
theorem c8_mode_assert (mode : Nat) (reg : List Str) (args : List Str)
    (hm : mode_assert_bad mode = false) :
    mode_assert_fires mode reg args = false ∧
      mode_assert_fires 3 [] [("-a".toList), ("b".toList)] = true :=
  ⟨mode_assert_fires_of_ok mode reg args hm, by decide⟩

/-- C8, witness: the amended theorem at mode 1 on `-a b`. -/
theorem c8_witness :
    mode_assert_fires 1 [] [("-a".toList), ("b".toList)] = false ∧
      mode_assert_fires 3 [] [("-a".toList), ("b".toList)] = true :=
  c8_mode_assert 1 [] [("-a".toList), ("b".toList)] (by decide)

/-- C9: a second `parse` call on the same instance fully replaces the stored
tokens, flags, parameters and positionals of the first — the result is the
same as parsing the second input on the original instance — while parsing
leaves the registered-parameter set unchanged, and registration changes
nothing but the registered-parameter set. -/
theorem c9_reparse_replaces (p : WParser) (mode1 mode2 : Nat) (args1 args2 : List Str)
    (name : Str) :
    parse (parse p mode1 args1) mode2 args2 = parse p mode2 args2
    ∧ (parse p mode1 args1).registeredParams = p.registeredParams
    ∧ (add_param p name).args = p.args ∧ (add_param p name).flags = p.flags
    ∧ (add_param p name).params = p.params ∧ (add_param p name).pos_args = p.pos_args :=
  ⟨rfl, rfl, rfl, rfl, rfl, rfl⟩

/-- C10: positional access past the count yields the empty-string sentinel
(bracket style), a failed stream (conversion style with no default), or a
non-failed stream holding the formatted default (conversion style with a
default; for the default `42` the text is `42`); in range, all three return
the stored positional. -/
theorem c10_pos_access (p : WParser) (ind : Nat) (dv : Int) :
    (p.pos_args.length ≤ ind →
      pos_arg_at p ind = [] ∧ pos_arg_stream p ind = bad_stream ∧ bad_stream.failed = true ∧
        pos_arg_stream_def p ind dv = ⟨formatInt dv, false⟩)
    ∧ ((hlt : ind < p.pos_args.length) →
        pos_arg_at p ind = p.pos_args.get ⟨ind, hlt⟩ ∧
        pos_arg_stream p ind = ⟨p.pos_args.get ⟨ind, hlt⟩, false⟩ ∧
        pos_arg_stream_def p ind dv = ⟨p.pos_args.get ⟨ind, hlt⟩, false⟩)
    ∧ formatInt 42 = ['4', '2'] := by
  refine ⟨?_, ?_, by decide⟩
  · intro hle
    have h1 : ¬ ind < p.pos_args.length := by omega
    exact ⟨by simp [pos_arg_at, h1], by simp [pos_arg_stream, hle], rfl,
      by simp [pos_arg_stream_def, hle]⟩
  · intro hlt
    have h2 : ¬ p.pos_args.length ≤ ind := by omega
    have hat : pos_arg_at p ind = p.pos_args.get ⟨ind, hlt⟩ := by simp [pos_arg_at, hlt]
    exact ⟨hat, by simp [pos_arg_stream, h2, hat], by simp [pos_arg_stream_def, h2, hat]⟩

/-- C10, witness: on a parser with one positional `a`, index 5 is out of range
(failed stream, default `42` formats to `42`) and index 0 returns `a`. -/
theorem c10_witness :
    pos_arg_stream ⟨[], [], [['a']], [], []⟩ 5 = bad_stream ∧
      pos_arg_stream_def ⟨[], [], [['a']], [], []⟩ 5 42 = ⟨['4', '2'], false⟩ ∧
      pos_arg_at ⟨[], [], [['a']], [], []⟩ 0 = ['a'] := by
  have h5 := c10_pos_access ⟨[], [], [['a']], [], []⟩ 5 42
  have h0 := c10_pos_access ⟨[], [], [['a']], [], []⟩ 0 42
  refine ⟨(h5.1 (by decide)).2.1, ?_, ?_⟩
  · rw [(h5.1 (by decide)).2.2.2, h5.2.2]
  · rw [(h0.2.1 (by decide)).1]
    rfl

end Argh
